import Mathlib

/-!
Verification development for the simple chess game engine
(`simple_chess_game.py`).

The board is a tuple of eight 8-character strings in the source; here a
`Board` is a `List (List Char)`.  Python string/tuple indexing semantics
(negative indices wrap once, indices past the end raise `IndexError`) are
modelled explicitly: an operation that can raise returns an `Option`,
where `none` stands for a raised exception.

The module `chess_game_support` imported by the source is not part of the
repository; its functions (`out_of_bounds`, `piece_at_position`,
`get_possible_moves`, `is_in_check`) and piece constants are modelled from
the specification (sections 4.1 to 4.3), as marked on each definition.
-/

abbrev Position := Int × Int

abbrev Move := Position × Position

abbrev Board := List (List Char)

def BOARD_SIZE : Nat := 8

/-- Python `xs[i]` on a list/str/tuple: a negative index wraps once past the
end, an index outside `[-len, len)` raises (modelled as `none`). -/
def pyIdx {α : Type} (xs : List α) (i : Int) : Option α :=
  let j := if i < 0 then i + xs.length else i
  if 0 ≤ j ∧ j < (xs.length : Int) then xs.get? j.toNat else none

/-- Python `xs[:i]`: clamps, never raises. -/
def pySliceTo (xs : List Char) (i : Int) : List Char :=
  xs.take (if i < 0 then ((xs.length : Int) + i).toNat else i.toNat)

/-- Python `xs[i:]`: clamps, never raises. -/
def pySliceFrom (xs : List Char) (i : Int) : List Char :=
  xs.drop (if i < 0 then ((xs.length : Int) + i).toNat else i.toNat)

/-- Modelled from the spec: piece constants of the missing
`chess_game_support` module; empty squares are the dot, white pieces are
upper case, black pieces lower case (spec section 3, Design Notes). -/
def EMPTY : Char := '.'

def WHITE_PAWN : Char := 'P'
def BLACK_PAWN : Char := 'p'
def WHITE_ROOK : Char := 'R'
def BLACK_ROOK : Char := 'r'
def WHITE_KING : Char := 'K'
def BLACK_KING : Char := 'k'

/-- Modelled from the spec: the white piece characters of
`chess_game_support`. -/
def WHITE_PIECES : List Char := ['P', 'N', 'B', 'R', 'Q', 'K']

/-- Modelled from the spec: the black piece characters of
`chess_game_support`. -/
def BLACK_PIECES : List Char := ['p', 'n', 'b', 'r', 'q', 'k']

/-- Modelled from the spec: `isInBounds` of section 4.1 / the missing
`out_of_bounds` helper; a `Position` is in bounds when each coordinate
lies in `[0, 8)`. -/
def out_of_bounds (position : Position) : Bool :=
  !(0 ≤ position.1 && position.1 < 8 && 0 ≤ position.2 && position.2 < 8)

/-- Modelled from the spec: section 4.1 `pieceAt(board, position)`
"fails with OutOfBounds if position is off-grid" (argument order as in the
source's call sites).  On an in-bounds position it reads the cell. -/
def piece_at_position (position : Position) (board : Board) : Option Char :=
  if out_of_bounds position then none
  else (board.get? position.1.toNat).bind fun row => row.get? position.2.toNat

/-- Total cell read used by the modelled movement rules; off-grid or
missing cells read as empty (the rules filter to in-bounds squares first,
spec section 4.2). -/
def cell (board : Board) (p : Position) : Char :=
  (piece_at_position p board).getD EMPTY

/-- `initial_state` from the source: the standard starting position. -/
def initial_state : Board :=
  ["rnbqkbnr".toList, "pppppppp".toList, "........".toList, "........".toList,
   "........".toList, "........".toList, "PPPPPPPP".toList, "RNBQKBNR".toList]

/-- One changed row, the source's
`board[row_num][:position[1]] + character + board[row_num][position[1] + 1:]`. -/
def change_row (row : List Char) (col : Int) (character : Char) : List Char :=
  pySliceTo row col ++ [character] ++ pySliceFrom row (col + 1)

/-- The row-building loop of `change_position`: for each index in order,
read `board[row_num]` (raising if the board is shorter) and keep the row,
splicing `character` in when the index equals `position[0]`. -/
def build_rows (board : Board) (position : Position) (character : Char) :
    List Nat → Option Board
  | [] => some []
  | n :: rest =>
    match board.get? n with
    | none => none
    | some row =>
      match build_rows board position character rest with
      | none => none
      | some others =>
        some ((if (n : Int) = position.1 then change_row row position.2 character
               else row) :: others)

/-- `change_position` from the source: loops `row_num` over `range(8)`,
splicing `character` into the row whose index equals `position[0]`.
Raises only when the board has fewer than 8 rows; an out-of-bounds
position is silently ignored (no row index matches / slicing clamps). -/
def change_position (board : Board) (position : Position) (character : Char) :
    Option Board :=
  build_rows board position character (List.range BOARD_SIZE)

/-- `clear_position` from the source. -/
def clear_position (board : Board) (position : Position) : Option Board :=
  change_position board position EMPTY

/-- `update_board` from the source: `piece = board[row][col]` (raw Python
indexing: wraps for negative coordinates, raises past the end), then
`change_position(clear_position(board, move[0]), move[1], piece)`. -/
def update_board (board : Board) (move : Move) : Option Board :=
  match pyIdx board move.1.1 with
  | none => none
  | some row =>
    match pyIdx row move.1.2 with
    | none => none
    | some piece =>
      match clear_position board move.1 with
      | none => none
      | some b1 => change_position b1 move.2 piece

/-- `is_current_players_piece` from the source. -/
def is_current_players_piece (piece : Char) (whites_turn : Bool) : Bool :=
  if whites_turn then WHITE_PIECES.contains piece else BLACK_PIECES.contains piece

/-! ### Piece movement rules and check detection, modelled from the spec -/

/-- Position plus an offset. -/
def posAdd (p : Position) (d : Int × Int) : Position := (p.1 + d.1, p.2 + d.2)

def in_bounds (p : Position) : Bool := !out_of_bounds p

def is_white_piece (c : Char) : Bool := WHITE_PIECES.contains c

def is_black_piece (c : Char) : Bool := BLACK_PIECES.contains c

/-- Is `c` an enemy piece of the side given by `white_side`? -/
def is_enemy (c : Char) (white_side : Bool) : Bool :=
  if white_side then is_black_piece c else is_white_piece c

/-- An in-bounds square that is empty or holds an enemy piece (the only
occupancy filter of spec section 4.2). -/
def empty_or_enemy (board : Board) (white_side : Bool) (p : Position) : Bool :=
  in_bounds p && (cell board p == EMPTY || is_enemy (cell board p) white_side)

def knight_offsets : List (Int × Int) :=
  [(-2, -1), (-2, 1), (-1, -2), (-1, 2), (1, -2), (1, 2), (2, -1), (2, 1)]

def king_offsets : List (Int × Int) :=
  [(-1, -1), (-1, 0), (-1, 1), (0, -1), (0, 1), (1, -1), (1, 0), (1, 1)]

def rook_dirs : List (Int × Int) := [(-1, 0), (1, 0), (0, -1), (0, 1)]

def bishop_dirs : List (Int × Int) := [(-1, -1), (-1, 1), (1, -1), (1, 1)]

/-- Modelled from the spec: one ray of section 4.2 — "a ray stops at the
first occupied square, including that square if it is an enemy (capture)
but excluding it if it is a friendly piece". -/
def ray (board : Board) (white_side : Bool) : Nat → Position → Int × Int → List Position
  | 0, _, _ => []
  | fuel + 1, p, d =>
    let q := posAdd p d
    if !in_bounds q then []
    else if cell board q == EMPTY then q :: ray board white_side fuel q d
    else if is_enemy (cell board q) white_side then [q]
    else []

def rays (board : Board) (white_side : Bool) (p : Position)
    (ds : List (Int × Int)) : List Position :=
  ds.foldr (fun d acc => ray board white_side BOARD_SIZE p d ++ acc) []

/-- Modelled from the spec: pawn moves of section 4.2 — one forward onto
empty, two forward from the starting rank when both squares are empty,
diagonal capture onto an enemy-occupied square. -/
def pawn_moves (board : Board) (white_side : Bool) (p : Position) : List Position :=
  let dir : Int := if white_side then -1 else 1
  let start_row : Int := if white_side then 6 else 1
  let one : Position := (p.1 + dir, p.2)
  let two : Position := (p.1 + 2 * dir, p.2)
  (if in_bounds one && cell board one == EMPTY then [one] else []) ++
  (if p.1 == start_row && cell board one == EMPTY && in_bounds two &&
      cell board two == EMPTY then [two] else []) ++
  ([(p.1 + dir, p.2 - 1), (p.1 + dir, p.2 + 1)].filter fun q =>
    in_bounds q && is_enemy (cell board q) white_side)

/-- Modelled from the spec: pawn *attack* geometry of section 4.3 —
"diagonal-only, ignoring the forward-move rules". -/
def pawn_attacks (white_side : Bool) (p : Position) : List Position :=
  ([(p.1 + (if white_side then -1 else 1), p.2 - 1),
    (p.1 + (if white_side then -1 else 1), p.2 + 1)].filter in_bounds)

/-- Modelled from the spec: the per-kind movement rules of section 4.2. -/
def piece_moves (board : Board) (c : Char) (p : Position) : List Position :=
  let white_side := is_white_piece c
  if c == 'P' || c == 'p' then pawn_moves board white_side p
  else if c == 'N' || c == 'n' then
    (knight_offsets.map (posAdd p)).filter (empty_or_enemy board white_side)
  else if c == 'B' || c == 'b' then rays board white_side p bishop_dirs
  else if c == 'R' || c == 'r' then rays board white_side p rook_dirs
  else if c == 'Q' || c == 'q' then rays board white_side p (rook_dirs ++ bishop_dirs)
  else if c == 'K' || c == 'k' then
    (king_offsets.map (posAdd p)).filter (empty_or_enemy board white_side)
  else []

/-- Modelled from the spec: `pseudoLegalDestinations` /
`get_possible_moves` of the missing support module (spec section 4.2);
an off-grid or empty origin yields no destinations. -/
def get_possible_moves (position : Position) (board : Board) : List Position :=
  match piece_at_position position board with
  | none => []
  | some c => if c == EMPTY then [] else piece_moves board c position

/-- Modelled from the spec: attack squares used by check detection —
the pseudo-legal destinations, except that pawns use their diagonal
attack geometry (spec section 4.3). -/
def attack_squares (board : Board) (c : Char) (p : Position) : List Position :=
  if c == 'P' || c == 'p' then pawn_attacks (is_white_piece c) p
  else piece_moves board c p

def all_positions : List Position :=
  (List.range BOARD_SIZE).foldr
    (fun r acc => ((List.range BOARD_SIZE).map fun c => ((r : Int), (c : Int))) ++ acc) []

/-- Modelled from the spec: `isInCheck` / `is_in_check` of the missing
support module (spec section 4.3) — true iff some enemy piece has the
side's king's square among its attack squares. -/
def is_in_check (board : Board) (whites_turn : Bool) : Bool :=
  let king := if whites_turn then WHITE_KING else BLACK_KING
  all_positions.any fun ep =>
    is_enemy (cell board ep) whites_turn &&
    (attack_squares board (cell board ep) ep).any fun t => cell board t == king

/-! ### The move validator and special-move handlers from the source -/

/-- `is_move_valid` from the source.  The conjunction is evaluated left to
right with Python short-circuiting; `piece_at_position` and `update_board`
can raise, so the result is an `Option Bool` (`none` = raised).  Note the
source's bounds guard rejects only when *both* endpoints are out of
bounds (`not (out_of_bounds(move[0]) and out_of_bounds(move[1]))`). -/
def is_move_valid (move : Move) (board : Board) (whites_turn : Bool) : Option Bool :=
  if out_of_bounds move.1 && out_of_bounds move.2 then some false
  else if move.1 = move.2 then some false
  else match piece_at_position move.1 board with
  | none => none
  | some p0 =>
    if !is_current_players_piece p0 whites_turn then some false
    else match piece_at_position move.2 board with
    | none => none
    | some p1 =>
      if !(p1 == EMPTY || !is_current_players_piece p1 whites_turn) then some false
      else if !((get_possible_moves move.1 board).contains move.2) then some false
      else match update_board board move with
      | none => none
      | some b2 => if is_in_check b2 whites_turn then some false else some true

/-- The four canonical castle moves, `legal_castle_move` in the source. -/
def legal_castle_move : List Move :=
  [((7, 4), (7, 6)), ((7, 4), (7, 2)), ((0, 4), (0, 6)), ((0, 4), (0, 2))]

/-- The `for i in range(squares)` loop of `is_valid_castle_attempt`:
simulate the king on each square of the walk and fail as soon as one
simulated position is in check. -/
def check_squares (board : Board) (whites_turn : Bool) (fp : Position)
    (direction : Int) : List Nat → Option Bool
  | [] => some true
  | i :: rest =>
    match update_board board (fp, (fp.1, fp.2 + (i : Int) * direction)) with
    | none => none
    | some b2 =>
      if is_in_check b2 whites_turn then some false
      else check_squares board whites_turn fp direction rest

/-- The `no_pieces_between` conjunction for a rightward castle (columns
`from+1`, `from+2`), with Python short-circuiting. -/
def no_pieces_between_right (board : Board) (fp : Position) : Option Bool :=
  match piece_at_position (fp.1, fp.2 + 1) board with
  | none => none
  | some a =>
    if a != EMPTY then some false
    else match piece_at_position (fp.1, fp.2 + 2) board with
    | none => none
    | some b => some (b == EMPTY)

/-- The `no_pieces_between` conjunction for a leftward castle (columns
`from-1`, `from-2`, `from-3`), with Python short-circuiting. -/
def no_pieces_between_left (board : Board) (fp : Position) : Option Bool :=
  match piece_at_position (fp.1, fp.2 - 1) board with
  | none => none
  | some a =>
    if a != EMPTY then some false
    else match piece_at_position (fp.1, fp.2 - 2) board with
    | none => none
    | some b =>
      if b != EMPTY then some false
      else match piece_at_position (fp.1, fp.2 - 3) board with
      | none => none
      | some c => some (c == EMPTY)

/-- `is_valid_castle_attempt` from the source.  `castling_info` is the
(left rook moved, king moved, right rook moved) triple. -/
def is_valid_castle_attempt (move : Move) (board : Board) (whites_turn : Bool)
    (castling_info : Bool × Bool × Bool) : Option Bool :=
  let king := if whites_turn then WHITE_KING else BLACK_KING
  let rook := if whites_turn then WHITE_ROOK else BLACK_ROOK
  match piece_at_position move.1 board with
  | none => none
  | some p =>
    if p == king && legal_castle_move.contains move && !castling_info.2.1 then
      let rightward := move.1.2 < move.2.2
      let rook_position : Position :=
        if rightward then (move.1.1, 7) else (move.1.1, 0)
      let direction : Int := if rightward then 1 else -1
      let squares : Nat := if rightward then 4 else 5
      let rook_moved := if rightward then castling_info.2.2 else castling_info.1
      match (if rightward then no_pieces_between_right board move.1
             else no_pieces_between_left board move.1) with
      | none => none
      | some npb =>
        match piece_at_position rook_position board with
        | none => none
        | some rp =>
          if rp == rook && !rook_moved && npb then
            check_squares board whites_turn move.1 direction (List.range squares)
          else some false
    else some false

/-- `perform_castling` from the source. -/
def perform_castling (move : Move) (board : Board) : Option Board :=
  let kings_row := move.2.1
  let rooks_move : Move :=
    if move.2.2 = 6 then ((kings_row, 7), (kings_row, 5))
    else ((kings_row, 0), (kings_row, 3))
  match update_board board move with
  | none => none
  | some b2 => update_board b2 rooks_move

/-- `is_valid_en_passant` from the source; the conjunction is evaluated
left to right with Python short-circuiting. -/
def is_valid_en_passant (move : Move) (board : Board) (whites_turn : Bool)
    (en_passant_position : Option Position) : Option Bool :=
  let direction : Int := if whites_turn then -1 else 1
  let self_pawn := if whites_turn then WHITE_PAWN else BLACK_PAWN
  let other_pawn := if whites_turn then BLACK_PAWN else WHITE_PAWN
  let should_start_at_row : Int := if whites_turn then 3 else 4
  match en_passant_position with
  | none => some false
  | some ep =>
    if !(ep = move.2 ∧ move.2.1 = move.1.1 + direction ∧
         move.1.1 = should_start_at_row : Bool) then some false
    else match piece_at_position move.1 board with
    | none => none
    | some p =>
      if p != self_pawn then some false
      else match piece_at_position (move.1.1, move.2.2) board with
      | none => none
      | some q => some (q == other_pawn)

/-- `perform_en_passant` from the source: clear the captured pawn's square
(rank of origin, file of destination), then apply the move. -/
def perform_en_passant (move : Move) (board : Board) (whites_turn : Bool) :
    Option Board :=
  let other_pawn_position : Position := (move.1.1, move.2.2)
  match clear_position board other_pawn_position with
  | none => none
  | some b1 => update_board b1 move

/-- One flag of `update_castling_info`: set when not already set and the
move starts at the flag's home square. -/
def upd_flag (move : Move) (pos : Position) (moved : Bool) : Bool :=
  if moved then moved
  else if move.1 = pos then true else moved

/-- `update_castling_info` from the source, the enumerate loop unrolled
over the (left rook, king, right rook) home squares. -/
def update_castling_info (move : Move) (whites_turn : Bool)
    (castling_info : Bool × Bool × Bool) : Bool × Bool × Bool :=
  let row : Int := if whites_turn then 7 else 0
  (upd_flag move (row, 0) castling_info.1,
   upd_flag move (row, 4) castling_info.2.1,
   upd_flag move (row, 7) castling_info.2.2)

/-- `update_en_passant_position` from the source.  The outer `Option` is
the possible raise of `piece_at_position`; the inner `Option Position` is
the Python return value (`None` or the skipped square). -/
def update_en_passant_position (move : Move) (board : Board) (whites_turn : Bool) :
    Option (Option Position) :=
  let direction : Int := if whites_turn then -1 else 1
  let pawn := if whites_turn then WHITE_PAWN else BLACK_PAWN
  let should_at_row : Int := if whites_turn then 4 else 3
  match piece_at_position move.2 board with
  | none => none
  | some p =>
    if p = pawn ∧ move.2.1 = should_at_row ∧
       move.2.1 - move.1.1 = 2 * direction then
      some (some (move.1.1 + direction, move.1.2))
    else some none

/-! ### Definitions used by the theorem statements -/

/-- One simulated king position of the castle walk is safe: the square
`i` steps from the king's start (in the walk's direction) can be occupied
by the king without leaving the mover in check. -/
def castle_square_safe (board : Board) (whites_turn : Bool) (fp : Position)
    (direction : Int) (i : Nat) : Bool :=
  match update_board board (fp, (fp.1, fp.2 + (i : Int) * direction)) with
  | none => false
  | some b2 => !is_in_check b2 whites_turn

/-- The rook relocation belonging to a castle move: when the king's
destination column is 6 the rook moves from column 7 to column 5,
otherwise from column 0 to column 3 (source lines 329-333). -/
def rook_relocation (move : Move) : Move :=
  if move.2.2 = 6 then ((move.2.1, 7), (move.2.1, 5))
  else ((move.2.1, 0), (move.2.1, 3))

/-- Both coordinates in `[0, 8)`. -/
abbrev pos_in_bounds (p : Position) : Prop :=
  0 ≤ p.1 ∧ p.1 < 8 ∧ 0 ≤ p.2 ∧ p.2 < 8

/-- A well-formed board: exactly 8 rows of exactly 8 characters. -/
abbrev wf_board (b : Board) : Prop :=
  b.length = 8 ∧ ∀ row ∈ b, row.length = 8

/-- The non-check castling preconditions of claim C3: the moving piece is
the side's king, the move is canonical, king and relevant rook are
unmoved per `castling_info`, the rook stands on its corner square, every
square strictly between king and rook is empty (and the board has its 8
rows, per the spec's Board data model). -/
abbrev castle_preconds (move : Move) (board : Board) (whites_turn : Bool)
    (castling_info : Bool × Bool × Bool) : Prop :=
  board.length = 8 ∧
  piece_at_position move.1 board =
    some (if whites_turn then WHITE_KING else BLACK_KING) ∧
  move ∈ legal_castle_move ∧
  castling_info.2.1 = false ∧
  (move.1.2 < move.2.2 →
    castling_info.2.2 = false ∧
    piece_at_position (move.1.1, 7) board =
      some (if whites_turn then WHITE_ROOK else BLACK_ROOK) ∧
    piece_at_position (move.1.1, move.1.2 + 1) board = some EMPTY ∧
    piece_at_position (move.1.1, move.1.2 + 2) board = some EMPTY) ∧
  (¬ move.1.2 < move.2.2 →
    castling_info.1 = false ∧
    piece_at_position (move.1.1, 0) board =
      some (if whites_turn then WHITE_ROOK else BLACK_ROOK) ∧
    piece_at_position (move.1.1, move.1.2 - 1) board = some EMPTY ∧
    piece_at_position (move.1.1, move.1.2 - 2) board = some EMPTY ∧
    piece_at_position (move.1.1, move.1.2 - 3) board = some EMPTY)

/-- The board after white's 1.e4 from the initial position. -/
def board_after_e4 : Board :=
  ["rnbqkbnr".toList, "pppppppp".toList, "........".toList, "........".toList,
   "....P...".toList, "........".toList, "PPPP.PPP".toList, "RNBQKBNR".toList]

/-- The board `update_board` produces from the initial position for the
move `((-1, 0), (4, 0))`: Python wraps `board[-1]` to the last row, so the
white rook is read from (7, 0) and *duplicated* onto (4, 0) while the
clear of row `-1` silently does nothing. -/
def wrap_bug_board : Board :=
  ["rnbqkbnr".toList, "pppppppp".toList, "........".toList, "........".toList,
   "R.......".toList, "........".toList, "PPPPPPPP".toList, "RNBQKBNR".toList]

/-- A position with a white pawn on c5 (3, 2) and a black pawn on e5
(3, 4): after black's double step e7-e5 the en-passant target is (2, 4). -/
def ep_bug_board : Board :=
  ["....k...".toList, "........".toList, "........".toList, "..P.p...".toList,
   "........".toList, "........".toList, "........".toList, "....K...".toList]

/-- Queenside castling position for white with a black rook on b8: the
king's own path e1-d1-c1 is unattacked, but b1 (which only the rook
crosses) is attacked down the b-file. -/
def castle_cex_board : Board :=
  [".r.....k".toList, "........".toList, "........".toList, "........".toList,
   "........".toList, "........".toList, "........".toList, "R...K...".toList]

/-- A clean kingside castling position for white. -/
def castle_wit_board : Board :=
  ["....k...".toList, "........".toList, "........".toList, "........".toList,
   "........".toList, "........".toList, "........".toList, "R...K..R".toList]

/-! ### Theorems -/

/-- C1: the claim says any out-of-bounds endpoint makes `is_move_valid`
return `False`.  The source's guard is `not (out_of_bounds(move[0]) and
out_of_bounds(move[1]))`, which only rejects when *both* endpoints are
out of bounds; with the origin in bounds (a white pawn on e2) and the
destination `(8, 4)` off the board, evaluation reaches
`piece_at_position(move[1], board)` and raises (modelled `none`) instead
of returning `False`. -/
theorem c1_bounds_bug :
    out_of_bounds ((6 : Int), (4 : Int)) = false ∧
    out_of_bounds ((8 : Int), (4 : Int)) = true ∧
    is_move_valid (((6 : Int), (4 : Int)), ((8 : Int), (4 : Int)))
      initial_state true = none := by
  decide

/-- C4: `is_valid_en_passant` never compares the destination file with
the origin file: with the en-passant target two files away from the
moving pawn it still returns `True` (white pawn c5, black pawn e5,
target e6 — the move c5-e6 is accepted although the file difference
is 2, not 1). -/
theorem c4_en_passant_adjacency_bug :
    is_valid_en_passant (((3 : Int), (2 : Int)), ((2 : Int), (4 : Int)))
      ep_bug_board true (some ((2 : Int), (4 : Int))) = some true ∧
    ((2 : Int), (4 : Int)).2 - ((3 : Int), (2 : Int)).2 = 2 := by
  decide

/-- C5: out-of-bounds coordinates are not surfaced as a checked error.
`update_board` silently wraps the negative row `-1` to row 7 (reading and
duplicating the white rook) and raises an uncaught index error (modelled
`none`) for row 8, while `change_position` silently returns the board
unchanged for row 8 instead of signalling anything. -/
theorem c5_out_of_bounds_bug :
    update_board initial_state (((-1 : Int), (0 : Int)), ((4 : Int), (0 : Int)))
      = some wrap_bug_board ∧
    update_board initial_state (((8 : Int), (0 : Int)), ((4 : Int), (0 : Int)))
      = none ∧
    change_position initial_state ((8 : Int), (0 : Int)) 'Q'
      = some initial_state := by
  decide

/-- C6: the three castling flags are monotonic — `update_castling_info`
never resets a component that is already `true`. -/
theorem c6_castling_monotonic (move : Move) (whites_turn : Bool)
    (castling_info : Bool × Bool × Bool) :
    (castling_info.1 = true →
      (update_castling_info move whites_turn castling_info).1 = true) ∧
    (castling_info.2.1 = true →
      (update_castling_info move whites_turn castling_info).2.1 = true) ∧
    (castling_info.2.2 = true →
      (update_castling_info move whites_turn castling_info).2.2 = true) := by
  refine ⟨fun h => ?_, fun h => ?_, fun h => ?_⟩ <;>
    simp [update_castling_info, upd_flag, h]

/-- Witness for C6 at a concrete move and flag triple. -/
theorem c6_castling_monotonic_witness :
    (true, false, true).1 = true ∧
    (update_castling_info (((7 : Int), (0 : Int)), ((5 : Int), (0 : Int))) true
      (true, false, true)).1 = true :=
  ⟨rfl, (c6_castling_monotonic (((7 : Int), (0 : Int)), ((5 : Int), (0 : Int)))
    true (true, false, true)).1 rfl⟩

/-- C8: for a canonical castle move, `perform_castling` is the king's
move through the ordinary move primitive followed by the corresponding
rook relocation through the same primitive (rook (row,7) to (row,5) when
the king lands on column 6, else rook (row,0) to (row,3)). -/
theorem c8_perform_castling (move : Move) (board : Board)
    (_h : move ∈ legal_castle_move) :
    perform_castling move board =
      (update_board board move).bind fun b2 =>
        update_board b2 (rook_relocation move) := by
  unfold perform_castling rook_relocation
  cases update_board board move <;> rfl

/-- Witness for C8: white kingside castle from the initial position. -/
theorem c8_perform_castling_witness :
    perform_castling (((7 : Int), (4 : Int)), ((7 : Int), (6 : Int)))
      initial_state =
    (update_board initial_state
        (((7 : Int), (4 : Int)), ((7 : Int), (6 : Int)))).bind fun b2 =>
      update_board b2
        (rook_relocation (((7 : Int), (4 : Int)), ((7 : Int), (6 : Int)))) :=
  c8_perform_castling (((7 : Int), (4 : Int)), ((7 : Int), (6 : Int)))
    initial_state (by decide)

/-- C2: every move accepted by the validator leaves the mover's own king
out of check after the move is applied — the validator's final conjunct
simulates the move and runs the check detector. -/
theorem c2_no_self_check (move : Move) (board : Board) (whites_turn : Bool)
    (h : is_move_valid move board whites_turn = some true) :
    (update_board board move).map (fun b2 => is_in_check b2 whites_turn)
      = some false := by
  unfold is_move_valid at h
  repeat' split at h
  all_goals simp_all

/-- Witness for C2: 1.e4 from the initial position is accepted and does
not leave the white king in check. -/
theorem c2_no_self_check_witness :
    (update_board initial_state (((6 : Int), (4 : Int)), ((4 : Int), (4 : Int)))).map
      (fun b2 => is_in_check b2 true) = some false :=
  c2_no_self_check (((6 : Int), (4 : Int)), ((4 : Int), (4 : Int)))
    initial_state true (by decide)

/-- C7: `update_en_passant_position` returns `None` for every committed
move that is not an eligible double pawn step (the piece now at the
destination is the mover's pawn on row 4 for white / row 3 for black and
the move advanced exactly two rows in the mover's direction); and from
the initial position, after 1.e4 (pawn (6,4) to (4,4)) it returns the
skipped square (5, 4). -/
theorem c7_en_passant_update :
    (∀ (move : Move) (board : Board) (whites_turn : Bool) (p : Char),
      piece_at_position move.2 board = some p →
      ¬(p = (if whites_turn then WHITE_PAWN else BLACK_PAWN) ∧
        move.2.1 = (if whites_turn then (4 : Int) else 3) ∧
        move.2.1 - move.1.1 = 2 * (if whites_turn then (-1 : Int) else 1)) →
      update_en_passant_position move board whites_turn = some none) ∧
    update_en_passant_position (((6 : Int), (4 : Int)), ((4 : Int), (4 : Int)))
      board_after_e4 true = some (some ((5 : Int), (4 : Int))) ∧
    update_board initial_state (((6 : Int), (4 : Int)), ((4 : Int), (4 : Int)))
      = some board_after_e4 := by
  refine ⟨?_, by decide, by decide⟩
  intro move board whites_turn p h1 h2
  unfold update_en_passant_position
  rw [h1]
  exact if_neg h2

/-- Witness for C7: a non-pawn move (black rook square as destination on
the initial board) clears the target to `None`. -/
theorem c7_en_passant_update_witness :
    update_en_passant_position (((0 : Int), (1 : Int)), ((0 : Int), (0 : Int)))
      initial_state true = some none :=
  c7_en_passant_update.1 (((0 : Int), (1 : Int)), ((0 : Int), (0 : Int)))
    initial_state true 'r' (by decide) (by decide)

/-! ### Helper lemmas for the board-model proofs -/

lemma pySliceTo_of_nonneg (xs : List Char) {i : Int} (h : 0 ≤ i) :
    pySliceTo xs i = xs.take i.toNat := by
  unfold pySliceTo
  rw [if_neg (by omega : ¬ i < 0)]

lemma pySliceFrom_of_nonneg (xs : List Char) {i : Int} (h : 0 ≤ i) :
    pySliceFrom xs i = xs.drop i.toNat := by
  unfold pySliceFrom
  rw [if_neg (by omega : ¬ i < 0)]

lemma change_row_eq (row : List Char) {c : Int} (ch : Char) (h0 : 0 ≤ c) :
    change_row row c ch = row.take c.toNat ++ [ch] ++ row.drop (c.toNat + 1) := by
  unfold change_row
  rw [pySliceTo_of_nonneg _ h0, pySliceFrom_of_nonneg _ (by omega : (0 : Int) ≤ c + 1),
    (by omega : (c + 1).toNat = c.toNat + 1)]

lemma change_row_length (row : List Char) {c : Int} (ch : Char)
    (h0 : 0 ≤ c) (h8 : c < 8) (hr : row.length = 8) :
    (change_row row c ch).length = 8 := by
  rw [change_row_eq row ch h0]
  simp [List.length_take, List.length_drop, hr]
  omega

lemma build_rows_eq (b : Board) (p : Position) (ch : Char) (l : List Nat)
    (hl : ∀ n ∈ l, n < b.length) :
    build_rows b p ch l = some (l.map fun (n : Nat) =>
      if (n : Int) = p.1 then change_row (b.getD n []) p.2 ch else b.getD n []) := by
  induction l with
  | nil => rfl
  | cons n rest ih =>
    have hn : n < b.length := hl n (List.mem_cons_self _ _)
    have hbn : b.get? n = some (b.getD n []) := by
      rw [List.getD_eq_get?, List.get?_eq_get hn]
      rfl
    simp only [build_rows, hbn, ih (fun m hm => hl m (List.mem_cons_of_mem _ hm)),
      List.map_cons]

lemma change_position_eq (b : Board) (p : Position) (ch : Char)
    (hb : 8 ≤ b.length) :
    change_position b p ch = some ((List.range 8).map fun (n : Nat) =>
      if (n : Int) = p.1 then change_row (b.getD n []) p.2 ch else b.getD n []) := by
  unfold change_position
  exact build_rows_eq b p ch _ (fun n hn => lt_of_lt_of_le (List.mem_range.mp hn) hb)

lemma getD_length (b : Board) {n : Nat} (hwf : wf_board b) (hn : n < 8) :
    (b.getD n []).length = 8 := by
  have hlen : n < b.length := by rw [hwf.1]; exact hn
  have : b.getD n [] = b.get ⟨n, hlen⟩ := by
    rw [List.getD_eq_get?, List.get?_eq_get hlen]; rfl
  rw [this]
  exact hwf.2 _ (List.get_mem b n hlen)

lemma wf_change (b : Board) (p : Position) (ch : Char)
    (hwf : wf_board b) (hp : pos_in_bounds p) :
    ∃ b2, change_position b p ch = some b2 ∧ wf_board b2 := by
  obtain ⟨h1, h2, h3, h4⟩ := hp
  refine ⟨_, change_position_eq b p ch (le_of_eq hwf.1.symm), ?_, ?_⟩
  · rw [List.length_map, List.length_range]
  · intro row hrow
    simp only [List.mem_map, List.mem_range] at hrow
    obtain ⟨n, hn, rfl⟩ := hrow
    split
    · exact change_row_length _ ch h3 h4 (getD_length b hwf hn)
    · exact getD_length b hwf hn

lemma pyIdx_eq {α : Type} (xs : List α) {i : Int} (h0 : 0 ≤ i)
    (h : i < (xs.length : Int)) : pyIdx xs i = xs.get? i.toNat := by
  simp only [pyIdx]
  rw [if_neg (by omega : ¬ i < 0), if_pos ⟨h0, h⟩]

lemma wf_update (b : Board) (m : Move) (hwf : wf_board b)
    (h1 : pos_in_bounds m.1) (h2 : pos_in_bounds m.2) :
    ∃ b2, update_board b m = some b2 ∧ wf_board b2 := by
  obtain ⟨a1, a2, a3, a4⟩ := h1
  have hblen : (b.length : Int) = 8 := by rw [hwf.1]; rfl
  have hr1 : m.1.1.toNat < b.length := by rw [hwf.1]; omega
  have hrowget : b.get? m.1.1.toNat = some (b.getD m.1.1.toNat []) := by
    rw [List.getD_eq_get?, List.get?_eq_get hr1]; rfl
  have hrowlen : (b.getD m.1.1.toNat []).length = 8 :=
    getD_length b hwf (by omega)
  have hc1 : m.1.2.toNat < (b.getD m.1.1.toNat []).length := by
    rw [hrowlen]; omega
  have hcolget := List.get?_eq_get hc1
  obtain ⟨b1, hb1, hwf1⟩ := wf_change b m.1 EMPTY hwf ⟨a1, a2, a3, a4⟩
  obtain ⟨b2, hb2, hwf2⟩ :=
    wf_change b1 m.2 ((b.getD m.1.1.toNat []).get ⟨m.1.2.toNat, hc1⟩) hwf1 h2
  refine ⟨b2, ?_, hwf2⟩
  simp only [update_board, clear_position,
    pyIdx_eq b a1 (by omega : m.1.1 < (b.length : Int)),
    pyIdx_eq (b.getD m.1.1.toNat []) a3
      (by rw [hrowlen]; omega : m.1.2 < ((b.getD m.1.1.toNat []).length : Int)),
    hrowget, hcolget, hb1, hb2]

lemma wf_en_passant (b : Board) (m : Move) (w : Bool) (hwf : wf_board b)
    (h1 : pos_in_bounds m.1) (h2 : pos_in_bounds m.2) :
    ∃ b2, perform_en_passant m b w = some b2 ∧ wf_board b2 := by
  obtain ⟨b1, hb1, hwf1⟩ := wf_change b (m.1.1, m.2.2) EMPTY hwf
    ⟨h1.1, h1.2.1, h2.2.2.1, h2.2.2.2⟩
  obtain ⟨b2, hb2, hwf2⟩ := wf_update b1 m hwf1 h1 h2
  exact ⟨b2, by simp only [perform_en_passant, clear_position, hb1, hb2], hwf2⟩

lemma wf_castling (b : Board) (m : Move) (hwf : wf_board b)
    (h1 : pos_in_bounds m.1) (h2 : pos_in_bounds m.2) :
    ∃ b2, perform_castling m b = some b2 ∧ wf_board b2 := by
  obtain ⟨b1, hb1, hwf1⟩ := wf_update b m hwf h1 h2
  have hrm : pos_in_bounds (rook_relocation m).1 ∧
      pos_in_bounds (rook_relocation m).2 := by
    unfold rook_relocation pos_in_bounds
    obtain ⟨_, _, _, _⟩ := h2
    split <;> simp <;> omega
  obtain ⟨b2, hb2, hwf2⟩ := wf_update b1 (rook_relocation m) hwf1 hrm.1 hrm.2
  refine ⟨b2, ?_, hwf2⟩
  have : perform_castling m b =
      (update_board b m).bind fun x => update_board x (rook_relocation m) := by
    unfold perform_castling rook_relocation
    cases update_board b m <;> rfl
  rw [this, hb1]
  simpa using hb2

/-- C10: well-formedness (8 rows of 8 characters) is preserved by every
board-producing operation given a well-formed board and in-bounds
position arguments: `change_position`, `update_board`,
`perform_en_passant` and `perform_castling` all succeed and return a
well-formed board. -/
theorem c10_wf_preservation :
    (∀ (b : Board) (p : Position) (ch : Char), wf_board b → pos_in_bounds p →
      ∃ b2, change_position b p ch = some b2 ∧ wf_board b2) ∧
    (∀ (b : Board) (m : Move), wf_board b → pos_in_bounds m.1 →
      pos_in_bounds m.2 → ∃ b2, update_board b m = some b2 ∧ wf_board b2) ∧
    (∀ (b : Board) (m : Move) (w : Bool), wf_board b → pos_in_bounds m.1 →
      pos_in_bounds m.2 → ∃ b2, perform_en_passant m b w = some b2 ∧ wf_board b2) ∧
    (∀ (b : Board) (m : Move), wf_board b → pos_in_bounds m.1 →
      pos_in_bounds m.2 → ∃ b2, perform_castling m b = some b2 ∧ wf_board b2) :=
  ⟨fun b p ch hwf hp => wf_change b p ch hwf hp,
   fun b m hwf h1 h2 => wf_update b m hwf h1 h2,
   fun b m w hwf h1 h2 => wf_en_passant b m w hwf h1 h2,
   fun b m hwf h1 h2 => wf_castling b m hwf h1 h2⟩

/-- Witness for C10, instantiating all four parts at concrete inputs. -/
theorem c10_wf_preservation_witness :
    (∃ b2, change_position initial_state ((0 : Int), (0 : Int)) 'Q' = some b2 ∧
      wf_board b2) ∧
    (∃ b2, update_board initial_state (((6 : Int), (4 : Int)), ((4 : Int), (4 : Int)))
      = some b2 ∧ wf_board b2) ∧
    (∃ b2, perform_en_passant (((3 : Int), (2 : Int)), ((2 : Int), (3 : Int)))
      ep_bug_board true = some b2 ∧ wf_board b2) ∧
    (∃ b2, perform_castling (((7 : Int), (4 : Int)), ((7 : Int), (6 : Int)))
      castle_wit_board = some b2 ∧ wf_board b2) :=
  ⟨c10_wf_preservation.1 initial_state ((0 : Int), (0 : Int)) 'Q'
      (by decide) (by decide),
   c10_wf_preservation.2.1 initial_state
      (((6 : Int), (4 : Int)), ((4 : Int), (4 : Int))) (by decide) (by decide)
      (by decide),
   c10_wf_preservation.2.2.1 ep_bug_board
      (((3 : Int), (2 : Int)), ((2 : Int), (3 : Int))) true (by decide) (by decide)
      (by decide),
   c10_wf_preservation.2.2.2 castle_wit_board
      (((7 : Int), (4 : Int)), ((7 : Int), (6 : Int))) (by decide) (by decide)
      (by decide)⟩

/-- C9: `change_position` writes exactly one cell — the result holds the
given character at (r, c), every other row is returned unchanged, every
other cell of row r is unchanged — and `clear_position` is
`change_position` with the empty-square character. -/
theorem c9_change_position_frame :
    (∀ (b : Board) (r c : Nat) (ch : Char), wf_board b → r < 8 → c < 8 →
      ∃ b2, change_position b ((r : Int), (c : Int)) ch = some b2 ∧
        ((b2.get? r).bind fun row => row.get? c) = some ch ∧
        (∀ r', r' ≠ r → b2.get? r' = b.get? r') ∧
        (∀ c', c' < 8 → c' ≠ c →
          ((b2.get? r).bind fun row => row.get? c') =
            ((b.get? r).bind fun row => row.get? c'))) ∧
    (∀ (b : Board) (p : Position), clear_position b p = change_position b p EMPTY) := by
  constructor
  · intro b r c ch hwf hr hc
    have hcp : change_position b ((r : Int), (c : Int)) ch =
        some ((List.range 8).map fun (n : Nat) =>
          if (n : Int) = (r : Int) then change_row (b.getD n []) ((c : Int)) ch
          else b.getD n []) :=
      change_position_eq b ((r : Int), (c : Int)) ch (le_of_eq hwf.1.symm)
    have hrlen : r < b.length := by rw [hwf.1]; exact hr
    have hbr : b.get? r = some (b.getD r []) := by
      rw [List.getD_eq_get?, List.get?_eq_get hrlen]; rfl
    have hrowlen : (b.getD r []).length = 8 := getD_length b hwf hr
    have htc : ((c : Int)).toNat = c := by omega
    have hcr : change_row (b.getD r []) ((c : Int)) ch =
        (b.getD r []).take c ++ [ch] ++ (b.getD r []).drop (c + 1) := by
      rw [change_row_eq _ ch (by omega : (0 : Int) ≤ (c : Int)), htc]
    have htake : ((b.getD r []).take c).length = c := by
      rw [List.length_take, hrowlen]; omega
    have hlapp : ((b.getD r []).take c ++ [ch]).length = c + 1 := by
      rw [List.length_append, htake, List.length_singleton]
    refine ⟨_, hcp, ?_, ?_, ?_⟩
    · rw [List.get?_map, List.get?_range hr]
      simp only [Option.map_some', Option.some_bind, eq_self_iff_true, if_true, hcr]
      rw [List.get?_append (by omega : c < ((b.getD r []).take c ++ [ch]).length),
        List.get?_append_right (le_of_eq htake)]
      rw [htake, Nat.sub_self]
      rfl
    · intro r' hne
      rcases Nat.lt_or_ge r' 8 with h8 | h8
      · rw [List.get?_map, List.get?_range h8]
        have hne2 : ¬ ((r' : Int) = (r : Int)) := by simpa using hne
        simp only [Option.map_some', hne2, if_false]
        rw [List.getD_eq_get?,
          List.get?_eq_get (by rw [hwf.1]; exact h8 : r' < b.length)]
        rfl
      · rw [List.get?_eq_none.2 (by rw [List.length_map, List.length_range]; omega),
          List.get?_eq_none.2 (by rw [hwf.1]; omega)]
    · intro c' h8 hne
      rw [List.get?_map, List.get?_range hr, hbr]
      simp only [Option.map_some', Option.some_bind, eq_self_iff_true, if_true, hcr]
      rcases Nat.lt_or_ge c' c with hlt | hge
      · rw [List.get?_append (by omega : c' < ((b.getD r []).take c ++ [ch]).length),
          List.get?_append (by omega : c' < ((b.getD r []).take c).length),
          List.get?_take hlt]
      · have hgt : c < c' := lt_of_le_of_ne hge fun h => hne h.symm
        rw [List.get?_append_right (by omega :
              ((b.getD r []).take c ++ [ch]).length ≤ c'),
          List.get?_drop]
        congr 1
        omega
  · intro b p
    rfl

/-- Witness for C9 at the initial board, square (4, 3), piece 'Q'. -/
theorem c9_change_position_frame_witness :
    ∃ b2, change_position initial_state ((4 : Int), (3 : Int)) 'Q' = some b2 ∧
      ((b2.get? 4).bind fun row => row.get? 3) = some 'Q' ∧
      (∀ r', r' ≠ 4 → b2.get? r' = initial_state.get? r') ∧
      (∀ c', c' < 8 → c' ≠ 3 →
        ((b2.get? 4).bind fun row => row.get? c') =
          ((initial_state.get? 4).bind fun row => row.get? c')) :=
  c9_change_position_frame.1 initial_state 4 3 'Q' (by decide) (by decide)
    (by decide)

/-! ### Helper lemmas for the castling proofs -/

lemma check_squares_eq (board : Board) (w : Bool) (fp : Position) (dir : Int)
    (l : List Nat)
    (hs : ∀ i ∈ l, ∃ b2,
      update_board board (fp, (fp.1, fp.2 + (i : Int) * dir)) = some b2) :
    check_squares board w fp dir l =
      some (l.all (castle_square_safe board w fp dir)) := by
  induction l with
  | nil => rfl
  | cons i rest ih =>
    obtain ⟨b2, hb2⟩ := hs i (List.mem_cons_self _ _)
    have ihr := ih fun j hj => hs j (List.mem_cons_of_mem _ hj)
    cases h : is_in_check b2 w
    · simp [check_squares, hb2, castle_square_safe, h, ihr]
    · simp [check_squares, hb2, castle_square_safe, h]

lemma update_board_some (board : Board) (fp q : Position) (k : Char)
    (hlen : board.length = 8) (hp : piece_at_position fp board = some k) :
    ∃ b2, update_board board (fp, q) = some b2 := by
  unfold piece_at_position at hp
  by_cases hob : out_of_bounds fp
  · rw [if_pos hob] at hp; cases hp
  · rw [if_neg hob] at hp
    simp only [out_of_bounds, Bool.not_eq_true', Bool.not_eq_false] at hob
    have hb : 0 ≤ fp.1 ∧ fp.1 < 8 ∧ 0 ≤ fp.2 ∧ fp.2 < 8 := by
      simp only [Bool.and_eq_true, decide_eq_true_eq] at hob
      omega
    obtain ⟨h1, h2, h3, h4⟩ := hb
    rw [Option.bind_eq_some] at hp
    obtain ⟨row, hrow, hcol⟩ := hp
    have hcollt : fp.2.toNat < row.length := (List.get?_eq_some.mp hcol).1
    have hclear := change_position_eq board fp EMPTY (le_of_eq hlen.symm)
    have hlen1 : ((List.range 8).map fun (n : Nat) =>
        if (n : Int) = fp.1 then change_row (board.getD n []) fp.2 EMPTY
        else board.getD n []).length = 8 := by
      rw [List.length_map, List.length_range]
    have hchange2 := change_position_eq ((List.range 8).map fun (n : Nat) =>
        if (n : Int) = fp.1 then change_row (board.getD n []) fp.2 EMPTY
        else board.getD n []) q k (le_of_eq hlen1.symm)
    have hsome : (update_board board (fp, q)).isSome := by
      simp only [update_board, clear_position,
        pyIdx_eq board h1 (by rw [hlen]; omega : fp.1 < (board.length : Int)),
        pyIdx_eq row h3 (by omega : fp.2 < (row.length : Int)),
        hrow, hcol, hclear, hchange2, Option.isSome_some]
    exact Option.isSome_iff_exists.mp hsome

lemma castle_right_eq (move : Move) (board : Board) (w : Bool)
    (ci : Bool × Bool × Bool)
    (hking : piece_at_position move.1 board =
      some (if w then WHITE_KING else BLACK_KING))
    (hmem : legal_castle_move.contains move = true)
    (hd : move.1.2 < move.2.2)
    (hkm : ci.2.1 = false) (hrm : ci.2.2 = false)
    (hrook : piece_at_position (move.1.1, 7) board =
      some (if w then WHITE_ROOK else BLACK_ROOK))
    (he1 : piece_at_position (move.1.1, move.1.2 + 1) board = some EMPTY)
    (he2 : piece_at_position (move.1.1, move.1.2 + 2) board = some EMPTY) :
    is_valid_castle_attempt move board w ci =
      check_squares board w move.1 1 (List.range 4) := by
  have hnpb : no_pieces_between_right board move.1 = some true := by
    simp [no_pieces_between_right, he1, he2]
  simp only [is_valid_castle_attempt]
  split
  · rename_i h
    rw [h] at hking
    cases hking
  · rename_i p h
    rw [h] at hking
    injection hking with hpk
    subst hpk
    have hmem2 : move ∈ legal_castle_move := by simpa using hmem
    have hcond : ((if w then WHITE_KING else BLACK_KING) ==
        (if w then WHITE_KING else BLACK_KING) &&
        legal_castle_move.contains move && !ci.2.1) = true := by
      simp [hkm, hmem2]
    rw [if_pos hcond]
    simp only [if_pos hd, hnpb, hrook]
    have hcond2 : ((if w then WHITE_ROOK else BLACK_ROOK) ==
        (if w then WHITE_ROOK else BLACK_ROOK) && !ci.2.2 && true) = true := by
      simp [hrm]
    rw [if_pos hcond2]

lemma castle_left_eq (move : Move) (board : Board) (w : Bool)
    (ci : Bool × Bool × Bool)
    (hking : piece_at_position move.1 board =
      some (if w then WHITE_KING else BLACK_KING))
    (hmem : legal_castle_move.contains move = true)
    (hd : ¬ move.1.2 < move.2.2)
    (hkm : ci.2.1 = false) (hrm : ci.1 = false)
    (hrook : piece_at_position (move.1.1, 0) board =
      some (if w then WHITE_ROOK else BLACK_ROOK))
    (he1 : piece_at_position (move.1.1, move.1.2 - 1) board = some EMPTY)
    (he2 : piece_at_position (move.1.1, move.1.2 - 2) board = some EMPTY)
    (he3 : piece_at_position (move.1.1, move.1.2 - 3) board = some EMPTY) :
    is_valid_castle_attempt move board w ci =
      check_squares board w move.1 (-1) (List.range 5) := by
  have hnpb : no_pieces_between_left board move.1 = some true := by
    simp [no_pieces_between_left, he1, he2, he3]
  simp only [is_valid_castle_attempt]
  split
  · rename_i h
    rw [h] at hking
    cases hking
  · rename_i p h
    rw [h] at hking
    injection hking with hpk
    subst hpk
    have hmem2 : move ∈ legal_castle_move := by simpa using hmem
    have hcond : ((if w then WHITE_KING else BLACK_KING) ==
        (if w then WHITE_KING else BLACK_KING) &&
        legal_castle_move.contains move && !ci.2.1) = true := by
      simp [hkm, hmem2]
    rw [if_pos hcond]
    simp only [if_neg hd, hnpb, hrook]
    have hcond2 : ((if w then WHITE_ROOK else BLACK_ROOK) ==
        (if w then WHITE_ROOK else BLACK_ROOK) && !ci.1 && true) = true := by
      simp [hrm]
    rw [if_pos hcond2]

/-- C3 (amended): under the non-check castling preconditions,
`is_valid_castle_attempt` returns `True` iff the king is safe on *every*
simulated square from its home column through the relevant rook's corner
column inclusive — columns 4,5,6,7 for kingside (`List.range 4`,
direction 1) and columns 4,3,2,1,0 for queenside (`List.range 5`,
direction -1).  The loop walks `i in range(squares)` with `squares = 4`
resp. `5`, which goes past the king's own two-square path. -/
theorem c3_castle_path_iff (move : Move) (board : Board) (whites_turn : Bool)
    (castling_info : Bool × Bool × Bool)
    (h : castle_preconds move board whites_turn castling_info) :
    is_valid_castle_attempt move board whites_turn castling_info = some true ↔
      (List.range (if move.1.2 < move.2.2 then 4 else 5)).all
        (castle_square_safe board whites_turn move.1
          (if move.1.2 < move.2.2 then 1 else -1)) = true := by
  obtain ⟨hlen, hking, hmem, hkm, hr, hl⟩ := h
  have hsucc : ∀ (q : Position), ∃ b2, update_board board (move.1, q) = some b2 :=
    fun q => update_board_some board move.1 q _ hlen hking
  have hmemc : legal_castle_move.contains move = true := by simpa using hmem
  simp only [legal_castle_move, List.mem_cons, List.not_mem_nil, or_false] at hmem
  rcases hmem with h4 | h4 | h4 | h4 <;> subst h4
  · have hd : ((((7 : Int), (4 : Int)), ((7 : Int), (6 : Int))) : Move).1.2 <
        ((((7 : Int), (4 : Int)), ((7 : Int), (6 : Int))) : Move).2.2 := by decide
    obtain ⟨hrm, hrook, he1, he2⟩ := hr hd
    rw [castle_right_eq _ board whites_turn castling_info hking hmemc hd hkm hrm
        hrook he1 he2,
      check_squares_eq board whites_turn _ 1 (List.range 4) (fun i _ => hsucc _),
      if_pos hd, if_pos hd]
    simp only [Option.some.injEq]
  · have hd : ¬ ((((7 : Int), (4 : Int)), ((7 : Int), (2 : Int))) : Move).1.2 <
        ((((7 : Int), (4 : Int)), ((7 : Int), (2 : Int))) : Move).2.2 := by decide
    obtain ⟨hrm, hrook, he1, he2, he3⟩ := hl hd
    rw [castle_left_eq _ board whites_turn castling_info hking hmemc hd hkm hrm
        hrook he1 he2 he3,
      check_squares_eq board whites_turn _ (-1) (List.range 5) (fun i _ => hsucc _),
      if_neg hd, if_neg hd]
    simp only [Option.some.injEq]
  · have hd : ((((0 : Int), (4 : Int)), ((0 : Int), (6 : Int))) : Move).1.2 <
        ((((0 : Int), (4 : Int)), ((0 : Int), (6 : Int))) : Move).2.2 := by decide
    obtain ⟨hrm, hrook, he1, he2⟩ := hr hd
    rw [castle_right_eq _ board whites_turn castling_info hking hmemc hd hkm hrm
        hrook he1 he2,
      check_squares_eq board whites_turn _ 1 (List.range 4) (fun i _ => hsucc _),
      if_pos hd, if_pos hd]
    simp only [Option.some.injEq]
  · have hd : ¬ ((((0 : Int), (4 : Int)), ((0 : Int), (2 : Int))) : Move).1.2 <
        ((((0 : Int), (4 : Int)), ((0 : Int), (2 : Int))) : Move).2.2 := by decide
    obtain ⟨hrm, hrook, he1, he2, he3⟩ := hl hd
    rw [castle_left_eq _ board whites_turn castling_info hking hmemc hd hkm hrm
        hrook he1 he2 he3,
      check_squares_eq board whites_turn _ (-1) (List.range 5) (fun i _ => hsucc _),
      if_neg hd, if_neg hd]
    simp only [Option.some.injEq]

/-- C3 counterexample to the claim as stated: on `castle_cex_board` the
queenside preconditions hold and the king's own path (columns 4, 3, 2 —
the first three loop steps) is entirely safe, yet the function returns
`some false`, because the black rook on b8 attacks b1 (column 1), a
square outside the king's path. -/
theorem c3_path_counterexample :
    castle_preconds (((7 : Int), (4 : Int)), ((7 : Int), (2 : Int)))
      castle_cex_board true (false, false, false) ∧
    (List.range 3).all (castle_square_safe castle_cex_board true
      ((7 : Int), (4 : Int)) (-1)) = true ∧
    is_valid_castle_attempt (((7 : Int), (4 : Int)), ((7 : Int), (2 : Int)))
      castle_cex_board true (false, false, false) = some false := by
  refine ⟨by decide, by decide, by decide⟩

/-- Witness for C3's amended theorem: a clean white kingside castle. -/
theorem c3_castle_path_iff_witness :
    is_valid_castle_attempt (((7 : Int), (4 : Int)), ((7 : Int), (6 : Int)))
      castle_wit_board true (false, false, false) = some true ↔
    (List.range (if ((((7 : Int), (4 : Int)), ((7 : Int), (6 : Int))) : Move).1.2 <
        ((((7 : Int), (4 : Int)), ((7 : Int), (6 : Int))) : Move).2.2
      then 4 else 5)).all
      (castle_square_safe castle_wit_board true ((7 : Int), (4 : Int))
        (if ((((7 : Int), (4 : Int)), ((7 : Int), (6 : Int))) : Move).1.2 <
            ((((7 : Int), (4 : Int)), ((7 : Int), (6 : Int))) : Move).2.2
          then 1 else -1)) = true :=
  c3_castle_path_iff (((7 : Int), (4 : Int)), ((7 : Int), (6 : Int)))
    castle_wit_board true (false, false, false) (by decide)
